import Mathlib

/-!
Verification of the pit-stop video analyzer (`src/video_analyzer.py`).

The development shallowly embeds the two entry points `analyze_video` and
`analyze_video_with_debug`.  Pixel intensities are natural numbers (uint8
values), scores and frame rates are rationals, and the per-frame loop of each
entry point is a structurally recursive function over the list of per-frame
preprocessed (cropped, grayscaled, blurred) regions-of-interest.  The colour
conversion and Gaussian blur are external OpenCV routines; the loops consume
the sequence of preprocessed regions they produce, which is exactly the data
the state machine and scorer observe.  Python operations that can raise
(division, the explicit `raise` statements) are embedded with `Except`.
-/

namespace PitStop

/-- A preprocessed (grayscale) pixel region: a list of rows of intensities.
Mirrors the numpy array `gray` in `video_analyzer.py`. -/
abbrev Region := List (List ℕ)

/-- Per-pixel absolute difference, `cv2.absdiff` on uint8 values
(line 54 / 138 of `video_analyzer.py`). -/
def pixelDiff (a b : ℕ) : ℕ := max a b - min a b

/-- One pixel of `cv2.threshold(frame_delta, sens, 255, cv2.THRESH_BINARY)`:
255 when the difference exceeds the sensitivity cutoff, else 0
(line 55 / 139; the source instantiates the cutoff at 25). -/
def threshBin (sens : ℚ) (d : ℕ) : ℕ := if (d : ℚ) > sens then 255 else 0

/-- `np.sum` over a two-dimensional array. -/
def matSum (m : List (List ℕ)) : ℕ := (m.map List.sum).sum

/-- `thresh.shape[0]`. -/
def numRows (m : Region) : ℕ := m.length

/-- `thresh.shape[1]`. -/
def numCols (m : Region) : ℕ := (m.headD []).length

/-- The motion scorer (lines 53-56 / 137-140 of `video_analyzer.py`):
`motion_score = (np.sum(thresh) / 255) / (thresh.shape[0] * thresh.shape[1]) * 100`
where `thresh` binarizes the absolute difference of the two preprocessed
regions at the sensitivity cutoff.  The source hard-codes the cutoff 25; the
cutoff is kept as a parameter, as in the spec's Motion Scorer contract. -/
def motionScore (prev cur : Region) (sens : ℚ) : ℚ :=
  let delta := List.zipWith (fun r1 r2 => List.zipWith pixelDiff r1 r2) prev cur
  let thresh := delta.map (fun row => row.map (threshBin sens))
  ((matSum thresh : ℚ) / 255) / ((numRows thresh : ℚ) * (numCols thresh : ℚ)) * 100

/-- Python `int()` applied to a rational: truncation toward zero. -/
def pyint (x : ℚ) : ℤ := if 0 ≤ x then ⌊x⌋ else ⌈x⌉

/-- The region extractor (lines 30-35 / 104-109 of `video_analyzer.py`):
`roi = [int(H*top), int(H*bottom), int(W*left), int(W*right)]`. -/
def resolveRoi (w h : ℕ) (top bottom left right : ℚ) : ℤ × ℤ × ℤ × ℤ :=
  (pyint ((h : ℚ) * top), pyint ((h : ℚ) * bottom),
   pyint ((w : ℚ) * left), pyint ((w : ℚ) * right))

/-- Modelled from the spec's words only (for comparison with `resolveRoi`):
the claimed Region Extractor contract
`PixelRegion = (round(H·top), round(H·bottom), round(W·left), round(W·right))`. -/
def resolveRoiSpec (w h : ℕ) (top bottom left right : ℚ) : ℤ × ℤ × ℤ × ℤ :=
  (round ((h : ℚ) * top), round ((h : ℚ) * bottom),
   round ((w : ℚ) * left), round ((w : ℚ) * right))

/-- A colour pixel in BGR channel order, as read by OpenCV. -/
abbrev Pixel := ℕ × ℕ × ℕ

/-- A raw colour frame: rows of BGR pixels. -/
abbrev ColorFrame := List (List Pixel)

/-- Python slicing `frame[r0:r1, c0:c1]` (line 49 / 133). -/
def cropFrame (f : ColorFrame) (r0 r1 c0 c1 : ℕ) : ColorFrame :=
  ((f.drop r0).take (r1 - r0)).map (fun row => (row.drop c0).take (c1 - c0))

/-- Models `cv2.rectangle(frame, (x1,y1), (x2,y2), color, thickness)`
(line 131): colours the axis-aligned rectangle outline through the two
corner points.  We model the one-pixel centre outline, which every positive
thickness covers; the source passes thickness 2, which colours these pixels
and a one-pixel neighbourhood. -/
def drawRectangle (f : ColorFrame) (x1 y1 x2 y2 : ℕ) (c : Pixel) : ColorFrame :=
  f.enum.map fun yrow =>
    yrow.2.enum.map fun xp =>
      if (x1 ≤ xp.1 ∧ xp.1 ≤ x2 ∧ y1 ≤ yrow.1 ∧ yrow.1 ≤ y2) ∧
         (xp.1 = x1 ∨ xp.1 = x2 ∨ yrow.1 = y1 ∨ yrow.1 = y2)
      then c else xp.2

/-- The ways the two entry points can raise, in source order:
`openError` (line 20 / 93), `fpsError` (line 24, non-debug only),
`noStationaryError` (line 77, non-debug only), `zeroDivisionError`
(Python `ZeroDivisionError` from `/` with a zero denominator),
`typeError` (Python `TypeError` from `int - None`, unreachable from the
initial state). -/
inductive PyError where
  | openError
  | fpsError
  | noStationaryError
  | zeroDivisionError
  | typeError
deriving DecidableEq, Repr

/-- Python division on numbers: raises `ZeroDivisionError` on a zero
denominator, otherwise exact division. -/
def pydiv (a b : ℚ) : Except PyError ℚ :=
  if b = 0 then Except.error PyError.zeroDivisionError else Except.ok (a / b)

/-- The mutable locals of the per-frame loop, lines 37-42 / 117-122. -/
structure LoopState where
  prev_frame : Option Region
  stationary_start_frame : Option ℕ
  stationary_end_frame : Option ℕ
  is_stationary : Bool
  frame_number : ℕ
deriving DecidableEq, Repr

/-- Initial loop state (lines 37-42 / 117-122). -/
def initState : LoopState :=
  { prev_frame := none
    stationary_start_frame := none
    stationary_end_frame := none
    is_stationary := false
    frame_number := 0 }

/-- The frame loop of `analyze_video` (lines 44-68), consuming the per-frame
preprocessed regions.  On the first frame there is no previous frame, so no
score is computed.  When motion resumes while stationary, the end frame is
recorded and the loop `break`s: the remaining frames are not processed and
`frame_number` is not incremented for the breaking frame. -/
def runA : LoopState → List Region → LoopState
  | st, [] => st
  | st, gray :: rest =>
    match st.prev_frame with
    | none =>
      runA { st with prev_frame := some gray,
                     frame_number := st.frame_number + 1 } rest
    | some prev =>
      if motionScore prev gray 25 < 5 then
        if st.is_stationary then
          runA { st with prev_frame := some gray,
                         frame_number := st.frame_number + 1 } rest
        else
          runA { st with is_stationary := true,
                         stationary_start_frame := some st.frame_number,
                         prev_frame := some gray,
                         frame_number := st.frame_number + 1 } rest
      else
        if st.is_stationary then
          { st with stationary_end_frame := some st.frame_number }
        else
          runA { st with prev_frame := some gray,
                         frame_number := st.frame_number + 1 } rest

/-- The state-machine update of one `analyze_video_with_debug` loop iteration
(lines 137-148): same thresholds as the non-debug loop, but the end frame is
only recorded when it is still unset, and there is no `break`. -/
def stepSM (st : LoopState) (gray : Region) : LoopState :=
  match st.prev_frame with
  | none => st
  | some prev =>
    if motionScore prev gray 25 < 5 then
      if st.is_stationary then st
      else { st with is_stationary := true,
                     stationary_start_frame := some st.frame_number }
    else
      if st.is_stationary ∧ st.stationary_end_frame = none then
        { st with stationary_end_frame := some st.frame_number }
      else st

/-- The overlay timer of the debug loop (lines 159-162): when the state is
stationary, `current_stationary_time = (frame_number - stationary_start_frame) / fps`
is computed for the on-frame text, which in Python raises
`ZeroDivisionError` when `fps` is 0 (and `TypeError` if the start frame were
unset, which is unreachable). -/
def overlayTimer (fps : ℚ) (st : LoopState) : Except PyError ℚ :=
  if st.is_stationary then
    match st.stationary_start_frame with
    | none => Except.error PyError.typeError
    | some s => pydiv ((st.frame_number : ℚ) - (s : ℚ)) fps
  else Except.ok 0

/-- The frame loop of `analyze_video_with_debug` (lines 125-166): the
state-machine update followed by the overlay timer (whose division can
raise), then the previous-frame buffer and frame counter updates.  An
exception propagates out of the loop immediately. -/
def runD (fps : ℚ) : LoopState → List Region → Except PyError LoopState
  | st, [] => Except.ok st
  | st, gray :: rest =>
    let st1 := stepSM st gray
    match overlayTimer fps st1 with
    | Except.error e => Except.error e
    | Except.ok _ =>
      runD fps { st1 with prev_frame := some gray,
                          frame_number := st1.frame_number + 1 } rest

/-- The video source abstraction: whether the container opened, its reported
frame rate and dimensions, and the finite forward-only sequence of per-frame
preprocessed regions-of-interest the analysis loop scores. -/
structure VideoSource where
  opened : Bool
  fps : ℚ
  width : ℕ
  height : ℕ
  grays : List Region
deriving DecidableEq, Repr

/-- `analyze_video` (lines 4-77): open check, FPS check, ROI resolution, the
frame loop, `cap.release()`, then the finalization returns.  The second
component records whether `cap.release()` (line 70) was executed on the taken
exit path: the open-failure raise (line 20) and the FPS raise (line 24) occur
before it, the no-stationary raise (line 77) after it. -/
def analyzeVideo (src : VideoSource) : Except PyError ℚ × Bool :=
  if src.opened = false then (Except.error PyError.openError, false)
  else if src.fps = 0 then (Except.error PyError.fpsError, false)
  else
    let _roi := resolveRoi src.width src.height (35/100) (65/100) (25/100) (75/100)
    let fin := runA initState src.grays
    match fin.stationary_start_frame, fin.stationary_end_frame with
    | some s, some e => (pydiv ((e : ℚ) - (s : ℚ)) src.fps, true)
    | some s, none => (pydiv ((fin.frame_number : ℚ) - (s : ℚ)) src.fps, true)
    | none, _ => (Except.error PyError.noStationaryError, true)

/-- The observable outcome of `analyze_video_with_debug`: the returned value
or propagated exception, and whether `cap.release()` (line 168) and
`out.release()` (line 169) were executed on the taken exit path. -/
structure DebugResult where
  result : Except PyError ℚ
  capReleased : Bool
  outReleased : Bool
deriving Repr

/-- `analyze_video_with_debug` (lines 80-177): open check (no FPS check), ROI
resolution, the frame loop (which can raise mid-stream), `cap.release()`,
`out.release()`, then the finalization returns with a zero-duration fallback
instead of a no-stationary raise.  A mid-loop exception propagates before the
release lines are reached. -/
def analyzeVideoWithDebug (src : VideoSource) : DebugResult :=
  if src.opened = false then
    { result := Except.error PyError.openError, capReleased := false, outReleased := false }
  else
    let _roi := resolveRoi src.width src.height (35/100) (65/100) (25/100) (75/100)
    match runD src.fps initState src.grays with
    | Except.error e =>
      { result := Except.error e, capReleased := false, outReleased := false }
    | Except.ok fin =>
      match fin.stationary_start_frame, fin.stationary_end_frame with
      | some s, some e =>
        { result := pydiv ((e : ℚ) - (s : ℚ)) src.fps, capReleased := true, outReleased := true }
      | some s, none =>
        { result := pydiv ((fin.frame_number : ℚ) - (s : ℚ)) src.fps,
          capReleased := true, outReleased := true }
      | none, _ =>
        { result := Except.ok 0, capReleased := true, outReleased := true }

/-- A 1x1 all-black preprocessed region: consecutive occurrences score 0. -/
def g0 : Region := [[0]]

/-- A 1x1 all-white preprocessed region: adjacent to `g0` it scores 100. -/
def g255 : Region := [[255]]

/-- An 8x8 colour frame of constant pixel (7,7,7). -/
def frame8 : ColorFrame := List.replicate 8 (List.replicate 8 ((7, 7, 7) : Pixel))

/-- The ordering invariant of the loop state: once stationary, a start frame
is recorded and strictly precedes the frame counter; a recorded end frame
implies the stationary flag and a recorded start frame strictly before it. -/
def OrderInv (st : LoopState) : Prop :=
  (st.is_stationary = true →
    ∃ s, st.stationary_start_frame = some s ∧ s < st.frame_number) ∧
  (∀ e, st.stationary_end_frame = some e →
    st.is_stationary = true ∧ ∃ s, st.stationary_start_frame = some s ∧ s < e)

/-- The part of the invariant the debug loop's overlay timer relies on:
whenever the stationary flag is set, a start frame is recorded. -/
def StartInv (st : LoopState) : Prop :=
  st.is_stationary = true → ∃ s, st.stationary_start_frame = some s

/-- A 3-frame source that is stationary from frame 1 to the end of the video
(all frames identical), at 30 frames per second. -/
def srcAllStill : VideoSource :=
  { opened := true, fps := 30, width := 8, height := 8, grays := [g0, g0, g0] }

/-- A 2-frame source with constant motion: no stationary period is ever
detected. -/
def srcMoving : VideoSource :=
  { opened := true, fps := 30, width := 8, height := 8, grays := [g0, g255] }

/-- An opened source whose container reports a frame rate of 0, with no
frames. -/
def srcZeroFpsEmpty : VideoSource :=
  { opened := true, fps := 0, width := 8, height := 8, grays := [] }

/-- An opened source whose container reports a frame rate of 0, whose two
identical frames make the analysis stationary at frame 1. -/
def srcZeroFpsStill : VideoSource :=
  { opened := true, fps := 0, width := 8, height := 8, grays := [g0, g0] }

/-- An opened, empty source at 30 frames per second. -/
def srcEmpty : VideoSource :=
  { opened := true, fps := 30, width := 8, height := 8, grays := [] }

/-- Two identical preprocessed regions score 0 (below the 5.0 threshold). -/
theorem score_g0_g0 : motionScore g0 g0 25 = 0 := by
  norm_num [motionScore, g0, pixelDiff, threshBin, matSum, numRows, numCols]

/-- A black-to-white 1x1 region pair scores 100 (above the 5.0 threshold). -/
theorem score_g0_g255 : motionScore g0 g255 25 = 100 := by
  norm_num [motionScore, g0, g255, pixelDiff, threshBin, matSum, numRows, numCols]

/-- A white-to-black 1x1 region pair scores 100 as well. -/
theorem score_g255_g0 : motionScore g255 g0 25 = 100 := by
  norm_num [motionScore, g0, g255, pixelDiff, threshBin, matSum, numRows, numCols]

/-- Once stationary: the flag is never reset and the recorded start frame is
never overwritten, in the non-debug loop. -/
theorem runA_stat_mono (gs : List Region) :
    ∀ st : LoopState, st.is_stationary = true →
      (runA st gs).is_stationary = true ∧
      (runA st gs).stationary_start_frame = st.stationary_start_frame := by
  induction gs with
  | nil => intro st h; simp [runA, h]
  | cons g rest ih =>
    rintro ⟨pf, ss, se, isS, fn⟩ h
    simp only [LoopState.is_stationary] at h
    subst h
    cases pf with
    | none => exact ih _ rfl
    | some prev =>
      by_cases hm : motionScore prev g 25 < 5
      · simp only [runA, hm, if_true, if_pos rfl]
        exact ih _ rfl
      · simp only [runA, hm, if_false, if_pos rfl]
        exact ⟨rfl, rfl⟩

/-- If the non-debug loop finishes with no end frame recorded, the `break`
was never taken, so every frame was processed and the final `frame_number`
is the initial one plus the number of frames. -/
theorem runA_fn_no_break (gs : List Region) :
    ∀ st : LoopState, st.stationary_end_frame = none →
      (runA st gs).stationary_end_frame = none →
      (runA st gs).frame_number = st.frame_number + gs.length := by
  induction gs with
  | nil => intro st _ _; simp [runA]
  | cons g rest ih =>
    rintro ⟨pf, ss, se, isS, fn⟩ h hfin
    simp only [LoopState.stationary_end_frame] at h
    subst h
    cases pf with
    | none =>
      simp only [runA] at hfin ⊢
      rw [ih _ rfl hfin]
      show fn + 1 + rest.length = fn + (rest.length + 1)
      omega
    | some prev =>
      by_cases hm : motionScore prev g 25 < 5 <;> cases isS <;>
        simp only [runA, hm, if_true, if_false, Bool.false_eq_true, if_pos rfl,
          ite_true, ite_false] at hfin ⊢
      · rw [ih _ rfl hfin]
        show fn + 1 + rest.length = fn + (rest.length + 1)
        omega
      · rw [ih _ rfl hfin]
        show fn + 1 + rest.length = fn + (rest.length + 1)
        omega
      · rw [ih _ rfl hfin]
        show fn + 1 + rest.length = fn + (rest.length + 1)
        omega
      · exact absurd hfin (by simp)

/-- If the non-debug loop records an end frame, it stops there: the final
`frame_number` equals the recorded end frame (the `break` happens before the
counter increment). -/
theorem runA_fn_break (gs : List Region) :
    ∀ st : LoopState, ∀ e : ℕ, st.stationary_end_frame = none →
      (runA st gs).stationary_end_frame = some e →
      (runA st gs).frame_number = e := by
  induction gs with
  | nil =>
    intro st e h hfin
    rw [show runA st [] = st from rfl] at hfin
    rw [h] at hfin
    cases hfin
  | cons g rest ih =>
    rintro ⟨pf, ss, se, isS, fn⟩ e h hfin
    simp only [LoopState.stationary_end_frame] at h
    subst h
    cases pf with
    | none => exact ih _ e rfl hfin
    | some prev =>
      by_cases hm : motionScore prev g 25 < 5 <;> cases isS <;>
        simp only [runA, hm, if_true, if_false, Bool.false_eq_true, if_pos rfl,
          ite_true, ite_false] at hfin ⊢
      · exact ih _ e rfl hfin
      · exact ih _ e rfl hfin
      · exact ih _ e rfl hfin
      · simp only [Option.some.injEq] at hfin
        exact hfin

/-- The non-debug loop preserves the ordering invariant. -/
theorem runA_orderInv (gs : List Region) :
    ∀ st : LoopState, OrderInv st → OrderInv (runA st gs) := by
  induction gs with
  | nil => intro st h; simpa [runA] using h
  | cons g rest ih =>
    rintro ⟨pf, ss, se, isS, fn⟩ ⟨h1, h2⟩
    cases pf with
    | none =>
      simp only [runA]
      apply ih
      refine ⟨fun hs => ?_, fun e he => ?_⟩
      · obtain ⟨s, hss, hlt⟩ := h1 hs
        exact ⟨s, hss, Nat.lt_succ_of_lt hlt⟩
      · exact h2 e he
    | some prev =>
      by_cases hm : motionScore prev g 25 < 5 <;> cases isS <;>
        simp only [runA, hm, if_true, if_false, Bool.false_eq_true, if_pos rfl,
          ite_true, ite_false]
      · apply ih
        refine ⟨fun hs => ?_, fun e he => ?_⟩
        · exact ⟨fn, rfl, Nat.lt_succ_self fn⟩
        · exact absurd (h2 e he).1 (by simp)
      · apply ih
        refine ⟨fun hs => ?_, fun e he => ?_⟩
        · obtain ⟨s, hss, hlt⟩ := h1 rfl
          exact ⟨s, hss, Nat.lt_succ_of_lt hlt⟩
        · exact h2 e he
      · apply ih
        refine ⟨fun hs => ?_, fun e he => ?_⟩
        · exact absurd hs (by simp)
        · exact absurd (h2 e he).1 (by simp)
      · refine ⟨fun hs => h1 rfl, fun e he => ?_⟩
        simp only [Option.some.injEq] at he
        subst he
        exact ⟨rfl, h1 rfl⟩

/-- The debug state-machine step does one of three things: nothing, record
the stationary start (only when not yet stationary), or record the
stationary end (only when stationary with no end recorded). -/
theorem stepSM_cases (st : LoopState) (g : Region) :
    stepSM st g = st ∨
    (st.is_stationary = false ∧
      stepSM st g = { st with is_stationary := true,
                              stationary_start_frame := some st.frame_number }) ∨
    (st.is_stationary = true ∧ st.stationary_end_frame = none ∧
      stepSM st g = { st with stationary_end_frame := some st.frame_number }) := by
  obtain ⟨pf, ss, se, isS, fn⟩ := st
  cases pf with
  | none => exact Or.inl rfl
  | some prev =>
    by_cases hm : motionScore prev g 25 < 5 <;> cases isS <;> cases se <;>
      simp [stepSM, hm]

/-- The debug state-machine step never changes the frame counter or the
previous-frame buffer. -/
theorem stepSM_frame_fields (st : LoopState) (g : Region) :
    (stepSM st g).frame_number = st.frame_number ∧
    (stepSM st g).prev_frame = st.prev_frame := by
  rcases stepSM_cases st g with h | ⟨_, h⟩ | ⟨_, _, h⟩ <;> rw [h] <;> exact ⟨rfl, rfl⟩

/-- The debug state-machine step preserves a recorded end frame. -/
theorem stepSM_end_mono (st : LoopState) (g : Region) (e : ℕ)
    (h : st.stationary_end_frame = some e) :
    (stepSM st g).stationary_end_frame = some e := by
  rcases stepSM_cases st g with hc | ⟨_, hc⟩ | ⟨_, hn, hc⟩
  · rw [hc]; exact h
  · rw [hc]; exact h
  · rw [hn] at h; cases h

/-- The debug state-machine step preserves `StartInv`. -/
theorem stepSM_startInv (st : LoopState) (g : Region) (h : StartInv st) :
    StartInv (stepSM st g) := by
  rcases stepSM_cases st g with hc | ⟨_, hc⟩ | ⟨_, _, hc⟩ <;> rw [hc]
  · exact h
  · intro _; exact ⟨st.frame_number, rfl⟩
  · intro hs; exact h hs

/-- One debug loop iteration (state-machine step, then the buffer and counter
updates) preserves the ordering invariant. -/
theorem stepSM_orderInv_bump (st : LoopState) (g : Region) (h : OrderInv st) :
    OrderInv { (stepSM st g) with prev_frame := some g,
                                  frame_number := (stepSM st g).frame_number + 1 } := by
  obtain ⟨h1, h2⟩ := h
  rcases stepSM_cases st g with hc | ⟨hf, hc⟩ | ⟨ht, hn, hc⟩ <;> rw [hc]
  · refine ⟨fun hs => ?_, fun e he => ?_⟩
    · obtain ⟨s, hss, hlt⟩ := h1 hs
      exact ⟨s, hss, Nat.lt_succ_of_lt hlt⟩
    · exact h2 e he
  · refine ⟨fun _ => ⟨st.frame_number, rfl, Nat.lt_succ_self _⟩, fun e he => ?_⟩
    obtain ⟨hstat, _⟩ := h2 e he
    rw [hf] at hstat
    cases hstat
  · refine ⟨fun _ => ?_, fun e he => ?_⟩
    · obtain ⟨s, hss, hlt⟩ := h1 ht
      exact ⟨s, hss, Nat.lt_succ_of_lt hlt⟩
    · simp only [Option.some.injEq] at he
      subst he
      obtain ⟨s, hss, hlt⟩ := h1 ht
      exact ⟨ht, s, hss, hlt⟩

/-- Unfolding of one debug loop iteration when the overlay timer succeeds. -/
theorem runD_cons_ok (fps : ℚ) (st : LoopState) (g : Region) (rest : List Region)
    (q : ℚ) (h : overlayTimer fps (stepSM st g) = Except.ok q) :
    runD fps st (g :: rest) =
      runD fps { (stepSM st g) with prev_frame := some g,
                                    frame_number := (stepSM st g).frame_number + 1 } rest := by
  simp only [runD, h]

/-- Unfolding of one debug loop iteration when the overlay timer raises. -/
theorem runD_cons_err (fps : ℚ) (st : LoopState) (g : Region) (rest : List Region)
    (e : PyError) (h : overlayTimer fps (stepSM st g) = Except.error e) :
    runD fps st (g :: rest) = Except.error e := by
  simp only [runD, h]

/-- With a nonzero frame rate and `StartInv`, the overlay timer never
raises. -/
theorem overlayTimer_ok (fps : ℚ) (st : LoopState) (hf : fps ≠ 0)
    (h : StartInv st) : ∃ q, overlayTimer fps st = Except.ok q := by
  unfold overlayTimer
  by_cases hs : st.is_stationary = true
  · obtain ⟨s, hss⟩ := h hs
    rw [hss]
    simp only [hs, if_true, pydiv, hf, if_neg hf]
    exact ⟨_, rfl⟩
  · rw [if_neg hs]
    exact ⟨0, rfl⟩

/-- The initial loop state satisfies the ordering invariant. -/
theorem initState_orderInv : OrderInv initState := by
  refine ⟨fun hs => ?_, fun e he => ?_⟩
  · simp [initState] at hs
  · simp [initState] at he

/-- If the debug loop returns normally, every frame was processed: the final
`frame_number` is the initial one plus the number of frames. -/
theorem runD_fn (fps : ℚ) (gs : List Region) :
    ∀ st fin : LoopState, runD fps st gs = Except.ok fin →
      fin.frame_number = st.frame_number + gs.length := by
  induction gs with
  | nil =>
    intro st fin h
    rw [show runD fps st [] = Except.ok st from rfl] at h
    cases h
    simp
  | cons g rest ih =>
    intro st fin h
    cases ht : overlayTimer fps (stepSM st g) with
    | error e => rw [runD_cons_err fps st g rest e ht] at h; cases h
    | ok q =>
      rw [runD_cons_ok fps st g rest q ht] at h
      have := ih _ _ h
      rw [this]
      have hfn := (stepSM_frame_fields st g).1
      show (stepSM st g).frame_number + 1 + rest.length = st.frame_number + (g :: rest).length
      rw [hfn]
      simp only [List.length_cons]
      omega

/-- With a nonzero frame rate the debug loop never raises; `StartInv` is
maintained throughout. -/
theorem runD_ok (fps : ℚ) (hf : fps ≠ 0) (gs : List Region) :
    ∀ st : LoopState, StartInv st →
      ∃ fin, runD fps st gs = Except.ok fin ∧ StartInv fin := by
  induction gs with
  | nil => intro st h; exact ⟨st, rfl, h⟩
  | cons g rest ih =>
    intro st h
    have h1 : StartInv (stepSM st g) := stepSM_startInv st g h
    obtain ⟨q, hq⟩ := overlayTimer_ok fps (stepSM st g) hf h1
    rw [runD_cons_ok fps st g rest q hq]
    exact ih _ h1

/-- The debug loop never erases a recorded end frame. -/
theorem runD_end_mono (fps : ℚ) (gs : List Region) :
    ∀ st fin : LoopState, ∀ e : ℕ, st.stationary_end_frame = some e →
      runD fps st gs = Except.ok fin → fin.stationary_end_frame = some e := by
  induction gs with
  | nil =>
    intro st fin e he h
    rw [show runD fps st [] = Except.ok st from rfl] at h
    cases h
    exact he
  | cons g rest ih =>
    intro st fin e he h
    cases ht : overlayTimer fps (stepSM st g) with
    | error er => rw [runD_cons_err fps st g rest er ht] at h; cases h
    | ok q =>
      rw [runD_cons_ok fps st g rest q ht] at h
      refine ih _ _ e ?_ h
      exact stepSM_end_mono st g e he

/-- A normally-returning debug run of a list prefix extends: running the
concatenation first runs the prefix, then continues from its final state. -/
theorem runD_append (fps : ℚ) (gs : List Region) :
    ∀ st fin : LoopState, ∀ more : List Region,
      runD fps st gs = Except.ok fin →
      runD fps st (gs ++ more) = runD fps fin more := by
  induction gs with
  | nil =>
    intro st fin more h
    rw [show runD fps st [] = Except.ok st from rfl] at h
    cases h
    rfl
  | cons g rest ih =>
    intro st fin more h
    cases ht : overlayTimer fps (stepSM st g) with
    | error er => rw [runD_cons_err fps st g rest er ht] at h; cases h
    | ok q =>
      rw [runD_cons_ok fps st g rest q ht] at h
      rw [show (g :: rest) ++ more = g :: (rest ++ more) from rfl]
      rw [runD_cons_ok fps st g (rest ++ more) q ht]
      exact ih _ _ more h

/-- The debug loop preserves the ordering invariant. -/
theorem runD_orderInv (fps : ℚ) (gs : List Region) :
    ∀ st fin : LoopState, OrderInv st → runD fps st gs = Except.ok fin →
      OrderInv fin := by
  induction gs with
  | nil =>
    intro st fin h hr
    rw [show runD fps st [] = Except.ok st from rfl] at hr
    cases hr
    exact h
  | cons g rest ih =>
    intro st fin h hr
    cases ht : overlayTimer fps (stepSM st g) with
    | error er => rw [runD_cons_err fps st g rest er ht] at hr; cases hr
    | ok q =>
      rw [runD_cons_ok fps st g rest q ht] at hr
      exact ih _ _ (stepSM_orderInv_bump st g h) hr

/-- On a video in which the non-debug loop never detects a stationary frame,
the debug loop takes exactly the same steps and returns the same final state
normally (the overlay timer never runs, so it cannot raise). -/
theorem runD_eq_runA_of_no_stat (fps : ℚ) (gs : List Region) :
    ∀ st : LoopState, st.is_stationary = false →
      st.stationary_start_frame = none → st.stationary_end_frame = none →
      (runA st gs).stationary_start_frame = none →
      runD fps st gs = Except.ok (runA st gs) := by
  induction gs with
  | nil => intro st _ _ _ _; rfl
  | cons g rest ih =>
    rintro ⟨pf, ss, se, isS, fn⟩ hS hss hse hnone
    simp only [LoopState.is_stationary] at hS
    simp only [LoopState.stationary_start_frame] at hss
    simp only [LoopState.stationary_end_frame] at hse
    subst hS; subst hss; subst hse
    cases pf with
    | none =>
      have hstep : stepSM ⟨none, none, none, false, fn⟩ g =
          ⟨none, none, none, false, fn⟩ := rfl
      have htimer : overlayTimer fps (stepSM ⟨none, none, none, false, fn⟩ g) =
          Except.ok 0 := by rw [hstep]; rfl
      rw [runD_cons_ok fps _ g rest 0 htimer]
      simp only [runA] at hnone ⊢
      rw [hstep]
      exact ih _ rfl rfl rfl hnone
    | some prev =>
      by_cases hm : motionScore prev g 25 < 5
      · exfalso
        simp only [runA, hm, if_true, if_false, Bool.false_eq_true,
          ite_true, ite_false] at hnone
        have := (runA_stat_mono rest ⟨some g, some fn, none, true, fn + 1⟩ rfl).2
        rw [this] at hnone
        cases hnone
      · have hstep : stepSM ⟨some prev, none, none, false, fn⟩ g =
            ⟨some prev, none, none, false, fn⟩ := by
          simp [stepSM, hm]
        have htimer : overlayTimer fps (stepSM ⟨some prev, none, none, false, fn⟩ g) =
            Except.ok 0 := by rw [hstep]; rfl
        rw [runD_cons_ok fps _ g rest 0 htimer]
        simp only [runA, hm, if_true, if_false, Bool.false_eq_true,
          ite_true, ite_false] at hnone ⊢
        rw [hstep]
        exact ih _ rfl rfl rfl hnone

/-- Concrete run of the non-debug loop on three identical frames: stationary
from frame 1, never ended, all three frames processed. -/
theorem runA_allStill : runA initState [g0, g0, g0] =
    { prev_frame := some g0, stationary_start_frame := some 1,
      stationary_end_frame := none, is_stationary := true, frame_number := 3 } := by
  norm_num [runA, initState, score_g0_g0]

/-- Concrete run of the non-debug loop on two frames in constant motion: no
stationary period detected. -/
theorem runA_moving : runA initState [g0, g255] =
    { prev_frame := some g255, stationary_start_frame := none,
      stationary_end_frame := none, is_stationary := false, frame_number := 2 } := by
  norm_num [runA, initState, score_g0_g255]

/-- Concrete run of the non-debug loop on still-still-moving-still frames:
stationary at frame 1, departure at frame 2, and the loop `break`s there
(frame 3 is never processed, the counter stays at 2). -/
theorem runA_breaks : runA initState [g0, g0, g255, g0] =
    { prev_frame := some g0, stationary_start_frame := some 1,
      stationary_end_frame := some 2, is_stationary := true, frame_number := 2 } := by
  norm_num [runA, initState, score_g0_g0, score_g0_g255]

/-- Concrete run of the debug loop on three identical frames at 30 fps. -/
theorem runD_allStill : runD 30 initState [g0, g0, g0] =
    Except.ok { prev_frame := some g0, stationary_start_frame := some 1,
                stationary_end_frame := none, is_stationary := true,
                frame_number := 3 } := by
  norm_num [runD, stepSM, overlayTimer, pydiv, initState, score_g0_g0]

/-- Concrete run of the debug loop on still-still-moving frames at 30 fps:
unlike the non-debug loop it processes all frames. -/
theorem runD_still_then_move : runD 30 initState [g0, g0, g255] =
    Except.ok { prev_frame := some g255, stationary_start_frame := some 1,
                stationary_end_frame := some 2, is_stationary := true,
                frame_number := 3 } := by
  norm_num [runD, stepSM, overlayTimer, pydiv, initState, score_g0_g0, score_g0_g255]

/-- Concrete run of the debug loop at frame rate 0 on two identical frames:
the overlay timer divides by zero on the frame that becomes stationary. -/
theorem runD_zeroFps : runD 0 initState [g0, g0] =
    Except.error PyError.zeroDivisionError := by
  norm_num [runD, stepSM, overlayTimer, pydiv, initState, score_g0_g0]

/-- Binarization at a higher cutoff never marks more pixels as changed. -/
theorem threshBin_anti (s1 s2 : ℚ) (h : s1 ≤ s2) (d : ℕ) :
    threshBin s2 d ≤ threshBin s1 d := by
  unfold threshBin
  by_cases h2 : (d : ℚ) > s2
  · rw [if_pos h2, if_pos (lt_of_le_of_lt h h2)]
  · rw [if_neg h2]
    exact Nat.zero_le _

/-- Raising the cutoff never increases the changed-pixel count. -/
theorem matSum_thresh_anti (s1 s2 : ℚ) (h : s1 ≤ s2) (delta : List (List ℕ)) :
    matSum (delta.map (fun row => row.map (threshBin s2))) ≤
      matSum (delta.map (fun row => row.map (threshBin s1))) := by
  unfold matSum
  rw [List.map_map, List.map_map]
  apply List.sum_le_sum
  intro row hrow
  simp only [Function.comp]
  apply List.sum_le_sum
  intro d hd
  exact threshBin_anti s1 s2 h d

/-- Binarization does not change the row count of the difference array. -/
theorem numRows_thresh (s : ℚ) (delta : List (List ℕ)) :
    numRows (delta.map (fun row => row.map (threshBin s))) = numRows delta := by
  simp [numRows]

/-- Binarization does not change the column count of the difference array. -/
theorem numCols_thresh (s : ℚ) (delta : List (List ℕ)) :
    numCols (delta.map (fun row => row.map (threshBin s))) = numCols delta := by
  cases delta with
  | nil => rfl
  | cons row rest => simp [numCols]

/-- A pixel never differs from itself. -/
theorem pixelDiff_self (a : ℕ) : pixelDiff a a = 0 := by
  simp [pixelDiff]

/-- A zero difference is never binarized as changed, for any nonnegative
cutoff. -/
theorem threshBin_zero (sens : ℚ) (hs : 0 ≤ sens) : threshBin sens 0 = 0 := by
  have h : ¬ ((0 : ℕ) : ℚ) > sens := by
    push_cast
    exact not_lt.mpr hs
  unfold threshBin
  exact if_neg h

/-- C7: for every pair of pixel-identical preprocessed regions (same
nonempty shape) and every sensitivity cutoff ≥ 0, the motion scorer returns
exactly 0. -/
theorem C7_identical_regions_score_zero (r : Region) (sens : ℚ) (hs : 0 ≤ sens)
    (hrows : 0 < numRows r) (hcols : 0 < numCols r) :
    motionScore r r sens = 0 := by
  have hmat : matSum ((List.zipWith (fun r1 r2 => List.zipWith pixelDiff r1 r2) r r).map
      (fun row => row.map (threshBin sens))) = 0 := by
    apply List.sum_eq_zero
    intro x hx
    rw [List.zipWith_same, List.map_map, List.map_map, List.mem_map] at hx
    obtain ⟨row, hrow, hxeq⟩ := hx
    subst hxeq
    simp only [Function.comp]
    apply List.sum_eq_zero
    intro y hy
    rw [List.zipWith_same, List.map_map, List.mem_map] at hy
    obtain ⟨a, ha, hyeq⟩ := hy
    subst hyeq
    simp only [Function.comp, pixelDiff_self]
    exact threshBin_zero sens hs
  simp only [motionScore]
  rw [hmat]
  norm_num

/-- C7 witness: a concrete 2x2 region compared against itself at cutoff 0
scores exactly 0. -/
theorem C7_witness :
    (0 : ℚ) ≤ 0 ∧ 0 < numRows [[7, 7], [7, 7]] ∧ 0 < numCols [[7, 7], [7, 7]] ∧
    motionScore [[7, 7], [7, 7]] [[7, 7], [7, 7]] 0 = 0 := by
  refine ⟨le_refl 0, by norm_num [numRows], by norm_num [numCols], ?_⟩
  exact C7_identical_regions_score_zero [[7, 7], [7, 7]] 0 (le_refl 0)
    (by norm_num [numRows]) (by norm_num [numCols])

/-- C8: for every fixed pair of preprocessed regions, the motion score is
monotonically non-increasing in the sensitivity cutoff. -/
theorem C8_score_antitone_in_sensitivity (prev cur : Region) (s1 s2 : ℚ)
    (h : s1 ≤ s2) :
    motionScore prev cur s2 ≤ motionScore prev cur s1 := by
  simp only [motionScore]
  rw [numRows_thresh, numCols_thresh, numRows_thresh, numCols_thresh]
  have hrw : ∀ X : ℚ, X / 255 /
      ((numRows (List.zipWith (fun r1 r2 => List.zipWith pixelDiff r1 r2) prev cur) : ℚ) *
       (numCols (List.zipWith (fun r1 r2 => List.zipWith pixelDiff r1 r2) prev cur) : ℚ)) * 100 =
      X * (100 / (255 *
        ((numRows (List.zipWith (fun r1 r2 => List.zipWith pixelDiff r1 r2) prev cur) : ℚ) *
         (numCols (List.zipWith (fun r1 r2 => List.zipWith pixelDiff r1 r2) prev cur) : ℚ)))) := by
    intro X
    rw [div_div, div_mul_eq_mul_div, mul_div_assoc]
  rw [hrw, hrw]
  apply mul_le_mul_of_nonneg_right
  · exact_mod_cast matSum_thresh_anti s1 s2 h _
  · positivity

/-- C8 witness: on a concrete region pair, raising the cutoff from 0 to 30
drops the score from 100 to 0, and the theorem gives the inequality. -/
theorem C8_witness :
    (0 : ℚ) ≤ 30 ∧
    motionScore [[0]] [[10]] 30 = 0 ∧ motionScore [[0]] [[10]] 0 = 100 ∧
    motionScore [[0]] [[10]] 30 ≤ motionScore [[0]] [[10]] 0 := by
  refine ⟨by norm_num, ?_, ?_, C8_score_antitone_in_sensitivity [[0]] [[10]] 0 30 (by norm_num)⟩
  · norm_num [motionScore, pixelDiff, threshBin, matSum, numRows, numCols]
  · norm_num [motionScore, pixelDiff, threshBin, matSum, numRows, numCols]

/-- Concrete run of the non-debug loop on still-still-moving frames. -/
theorem runA_breaks3 : runA initState [g0, g0, g255] =
    { prev_frame := some g0, stationary_start_frame := some 1,
      stationary_end_frame := some 2, is_stationary := true, frame_number := 2 } := by
  norm_num [runA, initState, score_g0_g0, score_g0_g255]

/-- In one iteration, the non-debug loop changes at most one of the two
recorded transition frames. -/
theorem runA_single_frame (st : LoopState) (g : Region) :
    (runA st [g]).stationary_start_frame = st.stationary_start_frame ∨
    (runA st [g]).stationary_end_frame = st.stationary_end_frame := by
  obtain ⟨pf, ss, se, isS, fn⟩ := st
  cases pf with
  | none => left; rfl
  | some prev =>
    by_cases hm : motionScore prev g 25 < 5 <;> cases isS <;>
      simp [runA, hm]

/-- In one iteration, the debug loop changes at most one of the two recorded
transition frames. -/
theorem runD_single_frame (fps : ℚ) (st fin : LoopState) (g : Region)
    (h : runD fps st [g] = Except.ok fin) :
    fin.stationary_start_frame = st.stationary_start_frame ∨
    fin.stationary_end_frame = st.stationary_end_frame := by
  cases ht : overlayTimer fps (stepSM st g) with
  | error e => rw [runD_cons_err fps st g [] e ht] at h; cases h
  | ok q =>
    rw [runD_cons_ok fps st g [] q ht] at h
    rw [show ∀ x : LoopState, runD fps x [] = Except.ok x from fun x => rfl] at h
    cases h
    rcases stepSM_cases st g with hc | ⟨_, hc⟩ | ⟨_, _, hc⟩ <;> rw [hc] <;> simp

/-- C9: in each entry point, if both a stationary start and a stationary end
frame are recorded, the end strictly follows the start; and a single
iteration of either loop records at most one transition (it never changes
both recorded frames at once), so the recorded transition frame indices
form a strictly increasing sequence. -/
theorem C9_transitions_strictly_increasing (fps : ℚ) (grays : List Region)
    (st fin fin1 : LoopState) (g : Region) :
    (∀ s e, (runA initState grays).stationary_start_frame = some s →
        (runA initState grays).stationary_end_frame = some e → s < e) ∧
    (runD fps initState grays = Except.ok fin →
      ∀ s e, fin.stationary_start_frame = some s →
        fin.stationary_end_frame = some e → s < e) ∧
    ((runA st [g]).stationary_start_frame = st.stationary_start_frame ∨
      (runA st [g]).stationary_end_frame = st.stationary_end_frame) ∧
    (runD fps st [g] = Except.ok fin1 →
      fin1.stationary_start_frame = st.stationary_start_frame ∨
      fin1.stationary_end_frame = st.stationary_end_frame) := by
  refine ⟨fun s e hs he => ?_, fun hD s e hs he => ?_,
    runA_single_frame st g, runD_single_frame fps st fin1 g⟩
  · obtain ⟨-, s', hs', hlt⟩ :=
      (runA_orderInv grays initState initState_orderInv).2 e he
    rw [hs'] at hs
    injection hs with hss
    subst hss
    exact hlt
  · obtain ⟨-, s', hs', hlt⟩ :=
      (runD_orderInv fps grays initState fin initState_orderInv hD).2 e he
    rw [hs'] at hs
    injection hs with hss
    subst hss
    exact hlt

/-- C9 witness: on the concrete still-still-moving video the start is frame
1 and the end frame 2, with 1 < 2; and a first concrete iteration leaves
both records unchanged. -/
theorem C9_witness :
    (1 : ℕ) < 2 ∧
    ((runA initState [g0]).stationary_start_frame = initState.stationary_start_frame ∨
      (runA initState [g0]).stationary_end_frame = initState.stationary_end_frame) := by
  have h := C9_transitions_strictly_increasing 30 [g0, g0, g255] initState
    { prev_frame := some g255, stationary_start_frame := some 1,
      stationary_end_frame := some 2, is_stationary := true, frame_number := 3 }
    { prev_frame := some g0, stationary_start_frame := none,
      stationary_end_frame := none, is_stationary := false, frame_number := 1 } g0
  refine ⟨h.1 1 2 ?_ ?_, h.2.2.1⟩
  · rw [runA_breaks3]
  · rw [runA_breaks3]

/-- C2: whenever no stationary period is ever detected, the non-debug entry
point raises `AnalysisError` (the line-77 raise), while the debug entry
point returns the zero-duration result 0.0 instead â two distinct
contracts. -/
theorem C2_no_stationary_contract (src : VideoSource)
    (ho : src.opened = true)
    (hnone : (runA initState src.grays).stationary_start_frame = none) :
    (src.fps ≠ 0 → (analyzeVideo src).1 = Except.error PyError.noStationaryError) ∧
    (analyzeVideoWithDebug src).result = Except.ok 0 := by
  have hD : runD src.fps initState src.grays = Except.ok (runA initState src.grays) :=
    runD_eq_runA_of_no_stat src.fps src.grays initState rfl rfl rfl hnone
  constructor
  · intro hf
    simp only [analyzeVideo]
    rw [if_neg (by simp [ho]), if_neg hf, hnone]
  · simp only [analyzeVideoWithDebug]
    rw [if_neg (by simp [ho]), hD]
    simp [hnone]

/-- C2 witness: on a concrete two-frame video in constant motion, the
non-debug entry point raises and the debug entry point returns 0.0. -/
theorem C2_witness :
    (analyzeVideo srcMoving).1 = Except.error PyError.noStationaryError ∧
    (analyzeVideoWithDebug srcMoving).result = Except.ok 0 := by
  have hn : (runA initState srcMoving.grays).stationary_start_frame = none := by
    rw [show srcMoving.grays = [g0, g255] from rfl, runA_moving]
  have h := C2_no_stationary_contract srcMoving rfl hn
  exact ⟨h.1 (by norm_num [srcMoving]), h.2⟩

/-- C1 counterexample: on a 3-frame all-still video at 30 fps (frames
indexed 0, 1, 2, so the last processed frame index is 2 and the stationary
start is frame 1), the non-debug entry point returns 2/30 — the frame
counter's final value 3 minus the start 1, over fps — while the claimed
value (last processed frame index − start)/fps is (2 − 1)/30, which
differs. -/
theorem C1_counterexample :
    (runA initState srcAllStill.grays).stationary_start_frame = some 1 ∧
    (runA initState srcAllStill.grays).stationary_end_frame = none ∧
    srcAllStill.grays.length = 3 ∧
    (analyzeVideo srcAllStill).1 = Except.ok (2 / 30) ∧
    ¬ ((2 / 30 : ℚ) = (2 - 1) / 30) := by
  have hg : srcAllStill.grays = [g0, g0, g0] := rfl
  refine ⟨by rw [hg, runA_allStill], by rw [hg, runA_allStill], by rw [hg]; rfl, ?_, by norm_num⟩
  simp only [analyzeVideo]
  rw [if_neg (by simp [srcAllStill]), if_neg (by norm_num [srcAllStill]), hg, runA_allStill]
  norm_num [pydiv, srcAllStill]

/-- C1 (amended): if the video ends while the stationary phase is still
open (start recorded, end not), both entry points close the interval using
the final value of the frame counter — the number of processed frames,
i.e. the last processed frame index plus one — so the returned duration is
(number of processed frames − stationary start frame index) / fps. -/
theorem C1_amended_mid_phase_close (src : VideoSource) (s : ℕ) (fin : LoopState)
    (ho : src.opened = true) (hf : src.fps ≠ 0) :
    ((runA initState src.grays).stationary_start_frame = some s →
      (runA initState src.grays).stationary_end_frame = none →
      (analyzeVideo src).1 =
        Except.ok (((src.grays.length : ℚ) - (s : ℚ)) / src.fps)) ∧
    (runD src.fps initState src.grays = Except.ok fin →
      fin.stationary_start_frame = some s →
      fin.stationary_end_frame = none →
      (analyzeVideoWithDebug src).result =
        Except.ok (((src.grays.length : ℚ) - (s : ℚ)) / src.fps)) := by
  constructor
  · intro hs he
    have hfn : (runA initState src.grays).frame_number = src.grays.length := by
      simpa [initState] using runA_fn_no_break src.grays initState rfl he
    simp only [analyzeVideo]
    rw [if_neg (by simp [ho]), if_neg hf, hs, he, hfn]
    simp [pydiv, hf]
  · intro hD hs he
    have hfn : fin.frame_number = src.grays.length := by
      simpa [initState] using runD_fn src.fps src.grays initState fin hD
    simp only [analyzeVideoWithDebug]
    rw [if_neg (by simp [ho]), hD]
    simp only [hs, he, hfn]
    simp [pydiv, hf]

/-- C1 witness: the amended finalization evaluated on the concrete 3-frame
all-still video (stationary start 1, 3 processed frames, 30 fps). -/
theorem C1_amended_witness :
    (analyzeVideo srcAllStill).1 =
      Except.ok (((srcAllStill.grays.length : ℚ) - ((1 : ℕ) : ℚ)) / srcAllStill.fps) ∧
    (analyzeVideoWithDebug srcAllStill).result =
      Except.ok (((srcAllStill.grays.length : ℚ) - ((1 : ℕ) : ℚ)) / srcAllStill.fps) := by
  have hg : srcAllStill.grays = [g0, g0, g0] := rfl
  have h := C1_amended_mid_phase_close srcAllStill 1
    { prev_frame := some g0, stationary_start_frame := some 1,
      stationary_end_frame := none, is_stationary := true, frame_number := 3 }
    rfl (by norm_num [srcAllStill])
  refine ⟨h.1 (by rw [hg, runA_allStill]) (by rw [hg, runA_allStill]),
    h.2 ?_ rfl rfl⟩
  show runD srcAllStill.fps initState srcAllStill.grays = _
  rw [show srcAllStill.fps = 30 from rfl, hg]
  exact runD_allStill

/-- C4 counterexample: on a 4-frame video where motion resumes at frame 2,
the non-debug entry point's loop `break`s at the departure guard: it stops
with its frame counter at 2 even though the video has 4 frames, so it does
not continue processing the remaining frames to the end of the video. -/
theorem C4_counterexample :
    (runA initState [g0, g0, g255, g0]).stationary_end_frame = some 2 ∧
    (runA initState [g0, g0, g255, g0]).frame_number = 2 ∧
    ([g0, g0, g255, g0] : List Region).length = 4 ∧ ¬ ((2 : ℕ) = 4) := by
  rw [runA_breaks]
  refine ⟨rfl, rfl, rfl, by norm_num⟩

/-- C4 (amended): when the departure guard fires, the debug entry point
continues to the end of the video (its loop always processes every frame)
and records only the first occurrence (the recorded end frame survives any
extension of the video); the non-debug entry point instead stops
immediately: its final frame counter equals the recorded end frame. -/
theorem C4_amended_departure_guard (fps : ℚ) (grays more : List Region)
    (e : ℕ) (fin : LoopState) (hf : fps ≠ 0) :
    (∃ fin0, runD fps initState grays = Except.ok fin0 ∧
      fin0.frame_number = grays.length) ∧
    ((runA initState grays).stationary_end_frame = some e →
      (runA initState grays).frame_number = e) ∧
    (runD fps initState grays = Except.ok fin → fin.stationary_end_frame = some e →
      ∃ fin2, runD fps initState (grays ++ more) = Except.ok fin2 ∧
        fin2.stationary_end_frame = some e) := by
  refine ⟨?_, ?_, ?_⟩
  · obtain ⟨fin0, h0, -⟩ := runD_ok fps hf grays initState (fun h => Bool.noConfusion h)
    exact ⟨fin0, h0, by simpa [initState] using runD_fn fps grays initState fin0 h0⟩
  · intro he
    exact runA_fn_break grays initState e rfl he
  · intro hD hend
    obtain ⟨fin0, h0, hSI⟩ := runD_ok fps hf grays initState (fun h => Bool.noConfusion h)
    rw [hD] at h0
    injection h0 with h0
    subst h0
    obtain ⟨fin2, h3, -⟩ := runD_ok fps hf more fin hSI
    refine ⟨fin2, ?_, ?_⟩
    · rw [runD_append fps grays initState fin more hD]
      exact h3
    · exact runD_end_mono fps more fin fin2 e hend h3

/-- C4 witness: on the concrete still-still-moving video at 30 fps the
debug loop processes all 3 frames, and after appending one more frame the
recorded end frame is still 2 (the first occurrence). -/
theorem C4_amended_witness :
    (∃ fin0, runD 30 initState [g0, g0, g255] = Except.ok fin0 ∧
      fin0.frame_number = ([g0, g0, g255] : List Region).length) ∧
    (∃ fin2, runD 30 initState ([g0, g0, g255] ++ [g0]) = Except.ok fin2 ∧
      fin2.stationary_end_frame = some 2) := by
  have h := C4_amended_departure_guard 30 [g0, g0, g255] [g0] 2
    { prev_frame := some g255, stationary_start_frame := some 1,
      stationary_end_frame := some 2, is_stationary := true, frame_number := 3 }
    (by norm_num)
  exact ⟨h.1, h.2.2 runD_still_then_move rfl⟩

/-- Python `int()` agrees with the floor on nonnegative inputs. -/
theorem pyint_eq_floor (x : ℚ) (h : 0 ≤ x) : pyint x = ⌊x⌋ := if_pos h

/-- C5 counterexample: at W = H = 100 with the valid normalized region
(0.356, 0.65, 0.25, 0.75) the code's `int()` truncation yields top 35 while
the claimed rounding yields 36, so the resolved region differs from the
claimed one; moreover with top 0.411 < bottom 0.414 even the claimed
rounded bounds coincide (41 = 41), violating the claimed strict
top_px < bottom_px. -/
theorem C5_counterexample :
    (0 : ℚ) ≤ 356 / 1000 ∧ (356 / 1000 : ℚ) < 65 / 100 ∧ (65 / 100 : ℚ) ≤ 1 ∧
    (0 : ℚ) ≤ 25 / 100 ∧ (25 / 100 : ℚ) < 75 / 100 ∧ (75 / 100 : ℚ) ≤ 1 ∧
    ¬ (resolveRoi 100 100 (356 / 1000) (65 / 100) (25 / 100) (75 / 100) =
        resolveRoiSpec 100 100 (356 / 1000) (65 / 100) (25 / 100) (75 / 100)) ∧
    (411 / 1000 : ℚ) < 414 / 1000 ∧
    (resolveRoiSpec 100 100 (411 / 1000) (414 / 1000) (25 / 100) (75 / 100)).1 =
      (resolveRoiSpec 100 100 (411 / 1000) (414 / 1000) (25 / 100) (75 / 100)).2.1 := by
  refine ⟨by norm_num, by norm_num, by norm_num, by norm_num, by norm_num, by norm_num,
    ?_, by norm_num, ?_⟩
  · norm_num [resolveRoi, resolveRoiSpec, pyint, round_eq, Prod.ext_iff]
  · norm_num [resolveRoiSpec, round_eq]

/-- C5 (amended): for every positive frame size and every normalized region
with 0 ≤ top < bottom ≤ 1 and 0 ≤ left < right ≤ 1, the resolved pixel
region is the floor (Python `int()` truncation) of the scaled bounds, and
0 ≤ top_px ≤ bottom_px ≤ H and 0 ≤ left_px ≤ right_px ≤ W (the inner
inequalities need not be strict: truncation can collapse them). -/
theorem C5_amended_region_extractor (w h : ℕ) (t b l r : ℚ)
    (hw : 0 < w) (hh : 0 < h) (ht0 : 0 ≤ t) (htb : t < b) (hb1 : b ≤ 1)
    (hl0 : 0 ≤ l) (hlr : l < r) (hr1 : r ≤ 1) :
    resolveRoi w h t b l r =
      (⌊(h : ℚ) * t⌋, ⌊(h : ℚ) * b⌋, ⌊(w : ℚ) * l⌋, ⌊(w : ℚ) * r⌋) ∧
    0 ≤ ⌊(h : ℚ) * t⌋ ∧ ⌊(h : ℚ) * t⌋ ≤ ⌊(h : ℚ) * b⌋ ∧ ⌊(h : ℚ) * b⌋ ≤ (h : ℤ) ∧
    0 ≤ ⌊(w : ℚ) * l⌋ ∧ ⌊(w : ℚ) * l⌋ ≤ ⌊(w : ℚ) * r⌋ ∧ ⌊(w : ℚ) * r⌋ ≤ (w : ℤ) := by
  have hh0 : (0 : ℚ) ≤ (h : ℚ) := Nat.cast_nonneg h
  have hw0 : (0 : ℚ) ≤ (w : ℚ) := Nat.cast_nonneg w
  have hb0 : 0 ≤ b := le_of_lt (lt_of_le_of_lt ht0 htb)
  have hr0 : 0 ≤ r := le_of_lt (lt_of_le_of_lt hl0 hlr)
  refine ⟨?_, ?_, ?_, ?_, ?_, ?_, ?_⟩
  · unfold resolveRoi
    rw [pyint_eq_floor _ (mul_nonneg hh0 ht0), pyint_eq_floor _ (mul_nonneg hh0 hb0),
      pyint_eq_floor _ (mul_nonneg hw0 hl0), pyint_eq_floor _ (mul_nonneg hw0 hr0)]
  · exact Int.le_floor.mpr (by push_cast; exact mul_nonneg hh0 ht0)
  · exact Int.floor_le_floor (mul_le_mul_of_nonneg_left (le_of_lt htb) hh0)
  · calc ⌊(h : ℚ) * b⌋ ≤ ⌊(h : ℚ)⌋ := by
          apply Int.floor_le_floor
          calc (h : ℚ) * b ≤ (h : ℚ) * 1 := mul_le_mul_of_nonneg_left hb1 hh0
          _ = (h : ℚ) := mul_one _
    _ = (h : ℤ) := Int.floor_natCast h
  · exact Int.le_floor.mpr (by push_cast; exact mul_nonneg hw0 hl0)
  · exact Int.floor_le_floor (mul_le_mul_of_nonneg_left (le_of_lt hlr) hw0)
  · calc ⌊(w : ℚ) * r⌋ ≤ ⌊(w : ℚ)⌋ := by
          apply Int.floor_le_floor
          calc (w : ℚ) * r ≤ (w : ℚ) * 1 := mul_le_mul_of_nonneg_left hr1 hw0
          _ = (w : ℚ) := mul_one _
    _ = (w : ℤ) := Int.floor_natCast w

/-- C5 witness: the amended extractor contract evaluated at the source's
default region fractions on an 8x8 frame. -/
theorem C5_amended_witness :
    resolveRoi 8 8 (35 / 100) (65 / 100) (25 / 100) (75 / 100) =
      (⌊((8 : ℕ) : ℚ) * (35 / 100)⌋, ⌊((8 : ℕ) : ℚ) * (65 / 100)⌋,
       ⌊((8 : ℕ) : ℚ) * (25 / 100)⌋, ⌊((8 : ℕ) : ℚ) * (75 / 100)⌋) ∧
    0 ≤ ⌊((8 : ℕ) : ℚ) * (35 / 100)⌋ ∧
    ⌊((8 : ℕ) : ℚ) * (35 / 100)⌋ ≤ ⌊((8 : ℕ) : ℚ) * (65 / 100)⌋ ∧
    ⌊((8 : ℕ) : ℚ) * (65 / 100)⌋ ≤ ((8 : ℕ) : ℤ) ∧
    0 ≤ ⌊((8 : ℕ) : ℚ) * (25 / 100)⌋ ∧
    ⌊((8 : ℕ) : ℚ) * (25 / 100)⌋ ≤ ⌊((8 : ℕ) : ℚ) * (75 / 100)⌋ ∧
    ⌊((8 : ℕ) : ℚ) * (75 / 100)⌋ ≤ ((8 : ℕ) : ℤ) :=
  C5_amended_region_extractor 8 8 (35 / 100) (65 / 100) (25 / 100) (75 / 100)
    (by norm_num) (by norm_num) (by norm_num) (by norm_num) (by norm_num)
    (by norm_num) (by norm_num) (by norm_num)

/-- C6 counterexample: release is not guaranteed on every exit path.  When
an opened source reports a frame rate of 0, the non-debug entry point's
FPS-check raise (line 24) exits after opening the capture and before
`cap.release()` (line 70); and when the debug loop raises mid-stream (the
overlay timer's division by zero), the exception propagates before
`cap.release()`/`out.release()` (lines 168-169) are reached, so neither
resource is released. -/
theorem C6_counterexample :
    (analyzeVideo srcZeroFpsEmpty).2 = false ∧
    (analyzeVideoWithDebug srcZeroFpsStill).capReleased = false ∧
    (analyzeVideoWithDebug srcZeroFpsStill).outReleased = false := by
  refine ⟨by simp [analyzeVideo, srcZeroFpsEmpty], ?_, ?_⟩
  · simp [analyzeVideoWithDebug, srcZeroFpsStill, runD_zeroFps]
  · simp [analyzeVideoWithDebug, srcZeroFpsStill, runD_zeroFps]

/-- C6 (amended): on every run of an opened source with a nonzero frame
rate, both entry points reach the code after the frame loop, so the
non-debug entry point releases the capture (including on the
no-stationary raise, which occurs after line 70), and the debug entry
point releases both the capture and the sink exactly once after the last
frame; release on the frame-rate error path and on mid-stream exceptions
is not provided (there is no try/finally). -/
theorem C6_amended_release (src : VideoSource) (ho : src.opened = true)
    (hf : src.fps ≠ 0) :
    (analyzeVideo src).2 = true ∧
    (analyzeVideoWithDebug src).capReleased = true ∧
    (analyzeVideoWithDebug src).outReleased = true := by
  obtain ⟨fin, hD, -⟩ := runD_ok src.fps hf src.grays initState (fun h => Bool.noConfusion h)
  refine ⟨?_, ?_, ?_⟩
  · simp only [analyzeVideo]
    rw [if_neg (by simp [ho]), if_neg hf]
    split <;> rfl
  · simp only [analyzeVideoWithDebug]
    rw [if_neg (by simp [ho]), hD]
    rcases hs : fin.stationary_start_frame with _ | s <;>
      rcases he : fin.stationary_end_frame with _ | e <;> simp [hs, he]
  · simp only [analyzeVideoWithDebug]
    rw [if_neg (by simp [ho]), hD]
    rcases hs : fin.stationary_start_frame with _ | s <;>
      rcases he : fin.stationary_end_frame with _ | e <;> simp [hs, he]

/-- C6 witness: the amended release guarantee evaluated on a concrete
opened, empty, 30 fps source. -/
theorem C6_amended_witness :
    (analyzeVideo srcEmpty).2 = true ∧
    (analyzeVideoWithDebug srcEmpty).capReleased = true ∧
    (analyzeVideoWithDebug srcEmpty).outReleased = true :=
  C6_amended_release srcEmpty rfl (by norm_num [srcEmpty])

/-- C10: for a source whose reported frame rate is 0, the non-debug entry
point raises the FPS error before processing any frame (the result does
not depend on the frame sequence at all), while the debug entry point has
no such check and its duration computation divides by the frame rate, so
on a concrete stationary input it raises an unguarded division by zero. -/
theorem C10_zero_fps (grays : List Region) (w h : ℕ) :
    (analyzeVideo { opened := true, fps := 0, width := w, height := h,
                    grays := grays }).1 = Except.error PyError.fpsError ∧
    (analyzeVideoWithDebug srcZeroFpsStill).result =
      Except.error PyError.zeroDivisionError := by
  constructor
  · simp [analyzeVideo]
  · simp [analyzeVideoWithDebug, srcZeroFpsStill, runD_zeroFps]

/-- C3 (code-bug evaluation): the debug entry point draws the ROI rectangle
on the input frame (line 131) before cropping it for scoring (line 133).
On an 8x8 frame of constant colour (7,7,7) with the source's ROI fractions
the resolved ROI is rows 2..5, columns 2..6, the rectangle is drawn at
corners (2,2) and (6,5), and the cropped region handed to the
preprocessor/scorer differs from the raw frame's cropped region (its pixel
(0,0) is the ROI colour (0,255,0)) — the overlay is not drawn on a copy. -/
theorem C3_overlay_mutates_scored_region :
    resolveRoi 8 8 (35 / 100) (65 / 100) (25 / 100) (75 / 100) = (2, 5, 2, 6) ∧
    ¬ (cropFrame (drawRectangle frame8 2 2 6 5 (0, 255, 0)) 2 5 2 6 =
        cropFrame frame8 2 5 2 6) := by
  constructor
  · norm_num [resolveRoi, pyint, Prod.ext_iff]
  · decide

end PitStop
